import Mathlib

/-!
# Verification of the streaming tool-call orchestration engine

Shallow embedding of the core of the Smart-Chatbot-with-Memory repository:

* `app/services/openai_service.py` — `OpenAIService.stream_chat_completion`
  (the streaming orchestrator, its tool-call fragment accumulator, and
  `_execute_tool_call`);
* `app/services/mem0_service.py` — `Mem0Service` (memory-store collaborator);
* `app/services/memory.py` — `MemoryService.add_conversation`;
* `app/routes/chat.py` — the `/chat` endpoint's `generate_response` loop.

Modelling conventions:

* Python `None`-able values become `Option`; machine I/O performed by the
  external OpenAI / Mem0 clients is abstracted as data (lists of stream
  events, respectively response functions that may fail with `Except`).
* `json.loads` is the Python standard library, not repository code, so the
  argument parser is a parameter `parse : String → Except String JsonVal`
  (an `.error` models the `json.JSONDecodeError` caught by the source's
  `except` handler, carrying `str(e)`).
* `json.dumps` applied to a tool result (line 425 of `openai_service.py`)
  is kept structured via the `MsgContent.jsonOf` constructor: no claim
  depends on the concrete serialization text, only on which value is
  serialized.
-/

set_option autoImplicit false

namespace SmartChatbot

/-- JSON values as produced by `json.loads` (numbers keep the int/float
distinction Python makes). -/
inductive JsonVal where
  | null : JsonVal
  | bool : Bool → JsonVal
  | int : Int → JsonVal
  | float : ℚ → JsonVal
  | str : String → JsonVal
  | arr : List JsonVal → JsonVal
  | obj : List (String × JsonVal) → JsonVal

/-- A Python dict with string keys (JSON object / keyword-argument map). -/
abbrev Dict := List (String × JsonVal)

/-- `d.get(key, default)` on a parsed-JSON dict (keys are unique after
`json.loads`, so first-match lookup is accurate). -/
def dictGet (d : Dict) (key : String) (default : JsonVal) : JsonVal :=
  match d.find? (fun p => p.1 = key) with
  | some p => p.2
  | none => default

/-- `key in d` for a dict: tests key membership (used by the source as
`"error" not in result`). -/
def hasKey (d : Dict) (key : String) : Bool :=
  d.any (fun p => p.1 = key)

/-- Python dict merge `\x7b**base, **extra\x7d` / `base.update(extra)`:
colliding keys keep their position in `base` but take `extra`'s value;
fresh keys of `extra` are appended in order. -/
def dictUpdate (base extra : Dict) : Dict :=
  base.map (fun p =>
    match extra.find? (fun q => q.1 = p.1) with
    | some q => (p.1, q.2)
    | none => p) ++
  extra.filter (fun q => ¬ base.any (fun p => p.1 = q.1))

/-- Python truthiness of a JSON value. -/
def pyTruthy : JsonVal → Bool
  | .null => false
  | .bool b => b
  | .int n => n ≠ 0
  | .float q => q ≠ 0
  | .str s => s ≠ ""
  | .arr xs => ¬ xs.isEmpty
  | .obj fs => ¬ fs.isEmpty

/-- Python `l[:n]` for an integer `n` (negative `n` counts from the end). -/
def pySliceTo {α : Type} (l : List α) (n : Int) : List α :=
  if 0 ≤ n then l.take n.toNat
  else l.take (l.length - min l.length (-n).toNat)

/-- `str(x)` for an optional string, as a Python f-string renders it
(`None` prints as `"None"`). -/
def pyOptStr (o : Option String) : String := o.getD "None"

/-! ## Mem0 service (`app/services/mem0_service.py`)

The external `mem0.MemoryClient` is abstracted as a record of response
functions; `.error e` models the client raising an exception whose
`str(e)` is `e` (always caught by the service's `try/except`). -/

/-- A message dict passed to `client.add` (role/content pair). -/
structure MemMsg where
  role : String
  content : JsonVal

/-- Abstraction of the external `mem0.MemoryClient`:
`add messages options`, `search query user_id`, `delete memory_id user_id`. -/
structure MemClient where
  add : List MemMsg → Dict → Except String Dict
  search : JsonVal → String → Except String (List JsonVal)
  delete : JsonVal → String → Except String Dict

/-- `Mem0Service`: holds the client, which is `none` when initialization
failed (unconfigured credentials), mirroring `self.client = None`. -/
structure Mem0Service where
  client : Option MemClient

/-- `Mem0Service.add_memory` (lines 28-69): returns the client result dict,
or an error descriptor when the client is absent or raises. -/
def Mem0Service.add_memory (svc : Mem0Service) (user_id : String)
    (messages : List MemMsg) (metadata : Option Dict) : Dict :=
  match svc.client with
  | none => [("error", .str "Memory service not available")]
  | some c =>
    let options : Dict := [("user_id", .str user_id), ("version", .str "v2")]
    let options := match metadata with
      | some md => dictUpdate options md
      | none => options
    match c.add messages options with
    | .ok result => result
    | .error e => [("error", .str e)]

/-- `if limit and len(memories) > limit: memories = memories[:limit]`
(line 110-111).  Truthiness is evaluated first; a comparison or slice that
would raise a `TypeError` is caught by the enclosing `except`, which
returns `[]`. -/
def applyLimit (limit : JsonVal) (mems : List JsonVal) : List JsonVal :=
  if pyTruthy limit then
    match limit with
    | .int n => if (mems.length : Int) > n then pySliceTo mems n else mems
    | .bool _ => if (mems.length : Int) > 1 then pySliceTo mems 1 else mems
    | .float q =>
      -- `len(memories) > limit` succeeds for a float, but the slice
      -- `memories[:limit]` raises TypeError, caught to `[]`.
      if (mems.length : ℚ) > q then [] else mems
    | _ => []  -- ordering comparison with a non-number raises, caught to []
  else mems

/-- `Mem0Service.search_memories` (lines 71-118): empty list when the
client is absent or the call raises. -/
def Mem0Service.search_memories (svc : Mem0Service) (user_id : String)
    (query : JsonVal) (limit : JsonVal) : List JsonVal :=
  match svc.client with
  | none => []
  | some c =>
    match c.search query user_id with
    | .ok memories => applyLimit limit memories
    | .error _ => []

/-- `Mem0Service.get_all_memories` (lines 120-151): a broad search with an
empty query; empty list when the client is absent or the call raises. -/
def Mem0Service.get_all_memories (svc : Mem0Service) (user_id : String) :
    List JsonVal :=
  match svc.client with
  | none => []
  | some c =>
    match c.search (.str "") user_id with
    | .ok memories => memories
    | .error _ => []

/-- `Mem0Service.delete_memory` (lines 153-179). -/
def Mem0Service.delete_memory (svc : Mem0Service) (memory_id : JsonVal)
    (user_id : String) : Dict :=
  match svc.client with
  | none => [("error", .str "Memory service not available")]
  | some c =>
    match c.delete memory_id user_id with
    | .ok result => result
    | .error e => [("error", .str e)]

/-! ## Streaming deltas and the fragment accumulator
(`stream_chat_completion`, lines 330-379) -/

/-- `delta.tool_calls[k].function`: the fragment's function-name/arguments
part (either may be absent on a given fragment). -/
structure ToolCallFnDelta where
  name : Option String
  arguments : Option String
  deriving DecidableEq

/-- One entry of `delta.tool_calls`: an index-tagged tool-call fragment. -/
structure ToolCallDelta where
  index : Option Nat
  id : Option String
  type : Option String
  function : ToolCallFnDelta
  deriving DecidableEq

/-- The `function` part of an accumulator slot / assistant tool-call entry:
`\x7b"name": ..., "arguments": ...\x7d` with arguments accumulated as a
string. -/
structure ToolCallFn where
  name : Option String
  arguments : String
  deriving DecidableEq

/-- One (non-`None`) slot of `tool_calls_to_execute`: the dict built at
lines 367-374. -/
structure ToolCallAcc where
  id : Option String
  type : Option String
  function : ToolCallFn
  deriving DecidableEq

/-- The accumulator slot freshly created from the first fragment seen for
an index (lines 367-374). -/
def newSlot (d : ToolCallDelta) : ToolCallAcc :=
  { id := d.id
    type := d.type
    function := { name := d.function.name
                  arguments := d.function.arguments.getD "" } }

/-- Ingest one `tool_call_delta` into `tool_calls_to_execute`
(lines 353-379): skip fragments without an index; pad the list with `None`
up to the index; create the slot on first sight, otherwise append the
arguments fragment to the existing slot. -/
def ingestToolCallDelta (acc : List (Option ToolCallAcc))
    (d : ToolCallDelta) : List (Option ToolCallAcc) :=
  match d.index with
  | none => acc
  | some i =>
    let acc := if acc.length ≤ i
      then acc ++ List.replicate (i + 1 - acc.length) none
      else acc
    match acc[i]? with
    | some none => acc.set i (some (newSlot d))
    | some (some slot) =>
      acc.set i (some { slot with
        function := { slot.function with
          arguments := slot.function.arguments ++ d.function.arguments.getD "" } })
    | none => acc  -- unreachable: the padding makes `i` in range

/-! ## Tool execution (`_execute_tool_call`, lines 150-279) -/

/-- The dict returned by `_execute_tool_call` (`result` kept structured;
the source serializes it with `json.dumps` only when appending the
tool-role message). -/
structure ToolResult where
  tool_call_id : Option String
  function_name : Option String
  result : JsonVal
  success : Bool

/-- Result produced by the `except` handler (lines 272-279):
`\x7b"error": str(e)\x7d`, `success = False`. -/
def exnResult (tc : ToolCallAcc) (e : String) : ToolResult :=
  { tool_call_id := tc.id
    function_name := tc.function.name
    result := .obj [("error", .str e)]
    success := false }

/-- Result of the unknown-function branch (lines 264-270). -/
def unknownResult (tc : ToolCallAcc) : ToolResult :=
  { tool_call_id := tc.id
    function_name := tc.function.name
    result := .obj [("error", .str ("Unknown function: " ++ pyOptStr tc.function.name))]
    success := false }

/-- Exception text for `function_args.get` on a non-dict value
(message abstracted; only its occurrence matters). -/
def attrGetError : String := "parsed arguments are not an object"

/-- `Mem0Service` defines no `update_memory`, so the dispatch branch at
line 234 raises `AttributeError`, caught by the `except` handler. -/
def updateMemoryAttrError : String :=
  "AttributeError: Mem0Service object has no attribute update_memory"

/-- Exception text for `\x7b..., **metadata\x7d` when the parsed
`metadata` value is not a dict (message abstracted). -/
def metadataUnpackError : String := "metadata argument is not a mapping"

/-- `_execute_tool_call` (lines 150-279).  `parse` stands for
`json.loads`; every failure path is caught by the source's `except`
handler and converted into a failed `ToolResult`, so the model is total
(the function never raises). -/
def executeToolCall (parse : String → Except String JsonVal)
    (mem : Mem0Service) (tc : ToolCallAcc) (user_id : String) : ToolResult :=
  match parse tc.function.arguments with
  | .error e => exnResult tc e
  | .ok args =>
    match tc.function.name with
    | some "add_memory" =>
      match args with
      | .obj fields =>
        let content := dictGet fields "content" (.str "")
        let importance := dictGet fields "importance" (.float (1/2))
        match dictGet fields "metadata" (.obj []) with
        | .obj metadata =>
          let result := mem.add_memory user_id
            [{ role := "user", content := content }]
            (some (dictUpdate
              [("importance", importance), ("type", .str "important_fact")]
              metadata))
          { tool_call_id := tc.id
            function_name := tc.function.name
            result := .obj result
            success := ¬ hasKey result "error" }
        | _ => exnResult tc metadataUnpackError
      | _ => exnResult tc attrGetError
    | some "search_memories" =>
      match args with
      | .obj fields =>
        let query := dictGet fields "query" (.str "")
        let limit := dictGet fields "limit" (.int 5)
        let memories := mem.search_memories user_id query limit
        { tool_call_id := tc.id
          function_name := tc.function.name
          result := .arr memories
          success := true }
      | _ => exnResult tc attrGetError
    | some "get_all_memories" =>
      let memories := mem.get_all_memories user_id
      { tool_call_id := tc.id
        function_name := tc.function.name
        result := .arr memories
        success := true }
    | some "update_memory" =>
      match args with
      | .obj _ =>
        -- `self.mem0_service.update_memory(...)` does not exist on
        -- `Mem0Service`: the call raises AttributeError, caught at 272.
        exnResult tc updateMemoryAttrError
      | _ => exnResult tc attrGetError
    | some "delete_memory" =>
      match args with
      | .obj fields =>
        let memory_id := dictGet fields "memory_id" (.str "")
        let result := mem.delete_memory memory_id user_id
        { tool_call_id := tc.id
          function_name := tc.function.name
          result := .obj result
          success := ¬ hasKey result "error" }
      | _ => exnResult tc attrGetError
    | _ => unknownResult tc

/-! ## Conversation messages and completion requests -/

/-- Content of a conversation message: either plain text or the
`json.dumps` of a tool result (kept structured, see the header note). -/
inductive MsgContent where
  | text : String → MsgContent
  | jsonOf : JsonVal → MsgContent

/-- One entry of `full_messages`: role, content, `tool_calls` (assistant
messages only), `tool_call_id` (tool messages only). -/
structure Msg where
  role : String
  content : Option MsgContent
  tool_calls : List ToolCallAcc := []
  tool_call_id : Option String := none

/-- `completion_kwargs` (lines 316-326): the request parameters for one
provider stream.  The five tool definitions are abstracted to their
function names (their JSON-Schema bodies are provider-facing data the
orchestrator never reads). -/
structure CompletionKwargs where
  model : String
  messages : List Msg
  temperature : ℚ
  max_tokens : Int
  stream : Bool
  tools : Option (List String)
  tool_choice : Option String

/-- The function names of `self.memory_tools` (lines 30-148). -/
def memoryToolNames : List String :=
  ["add_memory", "search_memories", "get_all_memories",
   "update_memory", "delete_memory"]

/-- `OpenAIService` configuration fields read by
`stream_chat_completion`. -/
structure OpenAIServiceModel where
  model : String
  temperature : ℚ
  max_tokens : Int
  system_prompt : String

/-- The memory-instruction text appended by
`get_enhanced_system_prompt` (lines 465-492), abridged to its first line;
only the fact that the enhanced prompt is `system_prompt ++ instructions`
is ever observable to the orchestrator. -/
def memoryInstructions : String :=
  "\nCRITICAL: You have memory tools and MUST use them:\n"

/-- `get_enhanced_system_prompt` (lines 465-492). -/
def getEnhancedSystemPrompt (svc : OpenAIServiceModel) : String :=
  svc.system_prompt ++ memoryInstructions

/-! ## The streaming orchestrator (`stream_chat_completion`, lines 281-453) -/

/-- The client-facing chunk model (`app/models/chat.py`, `StreamChunk`). -/
structure StreamChunk where
  content : String
  done : Bool := false
  deriving DecidableEq

/-- The terminal error emission produced by the `except` handler
(line 453). -/
def errorChunk (e : String) : StreamChunk :=
  { content := "Sorry, I encountered an error: " ++ e, done := true }

/-- One event observed while iterating a provider stream: either the next
chunk (collapsed to its only choice: delta + finish reason), or an
exception raised by the iteration, which the source's outer `try` catches. -/
inductive StreamEvt where
  | chunk : Option String → List ToolCallDelta → Option String → StreamEvt
  | err : String → StreamEvt

/-- The content delta of a chunk event. -/
def StreamEvt.contentOf : StreamEvt → Option String
  | .chunk c _ _ => c
  | .err _ => none

/-- The non-terminal chunks yielded for one content delta (line 346 /
line 443): one chunk when the delta carries content, none otherwise. -/
def contentChunksOf : Option String → List StreamChunk
  | some s => [{ content := s, done := false }]
  | none => []

/-- The follow-up streaming loop (lines 439-446): forwards content deltas
only, then yields the final `done` chunk; an exception instead surfaces
as the terminal error emission (skipping line 446). -/
def followUpChunks : List StreamEvt → List StreamChunk
  | [] => [{ content := "", done := true }]
  | .err e :: _ => [errorChunk e]
  | .chunk c _ _ :: rest => contentChunksOf c ++ followUpChunks rest

/-- The assistant message carrying the drained tool-call batch
(lines 385-402): each non-`None` slot is appended verbatim. -/
def assistantMsgOf (drained : List ToolCallAcc) : Msg :=
  { role := "assistant", content := none, tool_calls := drained }

/-- Sequential execution of the drained batch (lines 405-419): one
execution attempt per invocation, in list (= index) order. -/
def execBatch (parse : String → Except String JsonVal) (mem : Mem0Service)
    (user_id : String) : List ToolCallAcc → List (ToolCallAcc × ToolResult)
  | [] => []
  | tc :: rest =>
    (tc, executeToolCall parse mem tc user_id) ::
      execBatch parse mem user_id rest

/-- The tool-role message appended for one result (lines 422-426). -/
def toolMsgOf (tc : ToolCallAcc) (r : ToolResult) : Msg :=
  { role := "tool", content := some (.jsonOf r.result),
    tool_call_id := tc.id }

/-- All tool-role messages of a drained batch, in execution order. -/
def toolMsgsOf (parse : String → Except String JsonVal) (mem : Mem0Service)
    (user_id : String) (drained : List ToolCallAcc) : List Msg :=
  (execBatch parse mem user_id drained).map (fun p => toolMsgOf p.1 p.2)

/-- The follow-up request (lines 428-432): same kwargs with the augmented
message list and `tools`/`tool_choice` set to `None`. -/
def mkFollowUpKwargs (k : CompletionKwargs) (msgs : List Msg) :
    CompletionKwargs :=
  { k with messages := msgs, tools := none, tool_choice := none }

/-- Observable outcome of the primary streaming loop: yielded chunks,
number of tool-execution phases entered, follow-up requests opened,
executed (invocation, result) pairs, and the final `full_messages`. -/
structure LoopOut where
  chunks : List StreamChunk
  phases : Nat
  opens : List CompletionKwargs
  execed : List (ToolCallAcc × ToolResult)
  finalMsgs : List Msg

/-- The primary streaming loop (lines 335-448), processing provider events
with the running `tool_calls_to_execute` accumulator.  Per chunk: forward
the content delta (line 346), ingest tool-call fragments (lines 350-379),
then act on `finish_reason` (lines 382-448). -/
def primaryLoop (parse : String → Except String JsonVal) (mem : Mem0Service)
    (user_id : String) (kwargs0 : CompletionKwargs) (fullMsgs : List Msg)
    (followUp : List StreamEvt) :
    List StreamEvt → List (Option ToolCallAcc) → LoopOut
  | [], _ =>
    -- the provider stream ended without a finish reason: the generator
    -- returns with no terminal emission
    { chunks := [], phases := 0, opens := [], execed := [],
      finalMsgs := fullMsgs }
  | .err e :: _, _ =>
    { chunks := [errorChunk e], phases := 0, opens := [], execed := [],
      finalMsgs := fullMsgs }
  | .chunk content deltas finish :: rest, acc =>
    let contentChunks := contentChunksOf content
    let acc' := deltas.foldl ingestToolCallDelta acc
    match finish with
    | none =>
      let out := primaryLoop parse mem user_id kwargs0 fullMsgs followUp rest acc'
      { out with chunks := contentChunks ++ out.chunks }
    | some fr =>
      if fr = "tool_calls" ∧ acc' ≠ [] then
        let drained := acc'.filterMap id
        let fm := fullMsgs ++ assistantMsgOf drained ::
          toolMsgsOf parse mem user_id drained
        { chunks := contentChunks ++ followUpChunks followUp
          phases := 1
          opens := [mkFollowUpKwargs kwargs0 fm]
          execed := execBatch parse mem user_id drained
          finalMsgs := fm }
      else
        { chunks := contentChunks ++ [{ content := "", done := true }]
          phases := 0, opens := [], execed := [], finalMsgs := fullMsgs }

/-- `full_messages` before streaming begins (lines 301-309). -/
def initialMessages (svc : OpenAIServiceModel) (messages : List Msg)
    (use_tools : Bool) : List Msg :=
  { role := "system"
    content := some (.text (if use_tools then getEnhancedSystemPrompt svc
                            else svc.system_prompt)) } :: messages

/-- The primary request parameters (lines 316-326). -/
def initialKwargs (svc : OpenAIServiceModel) (messages : List Msg)
    (use_tools : Bool) : CompletionKwargs :=
  { model := svc.model
    messages := initialMessages svc messages use_tools
    temperature := svc.temperature
    max_tokens := svc.max_tokens
    stream := true
    tools := if use_tools then some memoryToolNames else none
    tool_choice := if use_tools then some "auto" else none }

/-- All observables of one turn of `stream_chat_completion`. -/
structure TurnTrace where
  chunks : List StreamChunk
  phases : Nat
  opens : List CompletionKwargs
  execed : List (ToolCallAcc × ToolResult)
  finalMsgs : List Msg

/-- One turn of `stream_chat_completion` (lines 281-453), driven by the
primary and follow-up provider event streams. -/
def streamChatCompletion (svc : OpenAIServiceModel)
    (parse : String → Except String JsonVal) (mem : Mem0Service)
    (messages : List Msg) (user_id : String) (use_tools : Bool)
    (primary followUp : List StreamEvt) : TurnTrace :=
  let kwargs0 := initialKwargs svc messages use_tools
  let out := primaryLoop parse mem user_id kwargs0
    (initialMessages svc messages use_tools) followUp primary []
  { chunks := out.chunks
    phases := out.phases
    opens := kwargs0 :: out.opens
    execed := out.execed
    finalMsgs := out.finalMsgs }

/-- Whether the primary loop, run on these events from this accumulator,
terminates by entering the tool-execution branch (line 383's condition
holds at the first finish signal). -/
def toolFinishTaken : List StreamEvt → List (Option ToolCallAcc) → Bool
  | [], _ => false
  | .err _ :: _, _ => false
  | .chunk _ deltas finish :: rest, acc =>
    let acc' := deltas.foldl ingestToolCallDelta acc
    match finish with
    | none => toolFinishTaken rest acc'
    | some fr => decide (fr = "tool_calls" ∧ acc' ≠ [])

/-- The batch the loop drains when the tool branch is entered: the
non-`None` accumulator slots in index order (lines 392-400). -/
def drainedBatch : List StreamEvt → List (Option ToolCallAcc) → List ToolCallAcc
  | [], _ => []
  | .err _ :: _, _ => []
  | .chunk _ deltas finish :: rest, acc =>
    let acc' := deltas.foldl ingestToolCallDelta acc
    match finish with
    | none => drainedBatch rest acc'
    | some fr =>
      if fr = "tool_calls" ∧ acc' ≠ [] then acc'.filterMap id else []

/-- Whether iterating the primary stream reaches a terminator: a raised
exception or a chunk carrying a finish reason.  (A real provider stream
always ends with a finish reason; without one the generator stops with no
terminal chunk.) -/
def terminatesB : List StreamEvt → Bool
  | [] => false
  | .err _ :: _ => true
  | .chunk _ _ finish :: rest => finish.isSome || terminatesB rest

/-! ## Conversation history (`app/services/memory.py`) and the `/chat`
route (`app/routes/chat.py`) -/

/-- One stored conversation (lines 46-50 of `memory.py`);
`timestamp` is the wall-clock string, threaded as a parameter. -/
structure Conversation where
  timestamp : String
  user_message : String
  assistant_response : String
  deriving DecidableEq

/-- `self.memories` (`user_id -> list of conversations`), modelled as a
total map defaulting to `[]` — exactly the effect of the
`if user_id not in self.memories: self.memories[user_id] = []` guard. -/
def Memories : Type := String → List Conversation

/-- `self.max_memories_per_user` (line 22). -/
def max_memories_per_user : Nat := 50

/-- `MemoryService.add_conversation` (lines 29-71): append the pair, then
keep only the last `max_memories_per_user` entries.  The Mem0 persistence
kicked off afterwards is a fire-and-forget background task against the
external store; it never touches `self.memories`. -/
def add_conversation (mem : Memories) (user_id user_message
    assistant_response timestamp : String) : Memories :=
  let conv : Conversation :=
    { timestamp := timestamp
      user_message := user_message
      assistant_response := assistant_response }
  let l := mem user_id ++ [conv]
  let l := if max_memories_per_user < l.length
    then l.drop (l.length - max_memories_per_user) else l
  fun u => if u = user_id then l else mem u

/-- Concatenation of the contents of a chunk list, in order. -/
def concatContents : List StreamChunk → String
  | [] => ""
  | c :: rest => c.content ++ concatContents rest

/-- Python's ASCII whitespace set, as used by `str.strip()`. -/
def pyIsSpace (c : Char) : Bool :=
  c = ' ' ∨ c = '\t' ∨ c = '\n' ∨ c = '\r' ∨ c = '\x0b' ∨ c = '\x0c'

/-- `str.strip()` (Python standard library, modelled structurally): drop
whitespace from both ends. -/
def pyStrip (s : String) : String :=
  ⟨((s.data.dropWhile pyIsSpace).reverse.dropWhile pyIsSpace).reverse⟩

/-- The memory effect of `generate_response` (`chat.py`, lines 45-65):
fold over the service's chunks accumulating `full_response` from
non-terminal chunks; at a terminal chunk, store the conversation iff the
accumulated response is non-blank.  SSE framing of the forwarded chunks is
transport-only and not modelled. -/
def generateResponseMemories (user_id user_message timestamp : String) :
    List StreamChunk → String → Memories → Memories
  | [], _, mem => mem
  | c :: rest, full_response, mem =>
    if c.done then
      let mem' := if pyStrip full_response ≠ ""
        then add_conversation mem user_id user_message full_response timestamp
        else mem
      generateResponseMemories user_id user_message timestamp rest
        full_response mem'
    else
      generateResponseMemories user_id user_message timestamp rest
        (full_response ++ c.content) mem

/-! ## Lemmas about the fragment accumulator -/

/-- The argument text carried by a fragment list, concatenated in arrival
order (each absent `arguments` contributes the empty string, as in the
source's `... or ""`). -/
def fragmentsText : List ToolCallDelta → String
  | [] => ""
  | f :: fs => f.function.arguments.getD "" ++ fragmentsText fs

theorem ingest_create (acc : List (Option ToolCallAcc)) (d : ToolCallDelta)
    (i : Nat) (hidx : d.index = some i) (hlen : acc.length ≤ i) :
    (ingestToolCallDelta acc d)[i]? = some (some (newSlot d)) := by
  unfold ingestToolCallDelta
  rw [hidx]
  simp only [if_pos hlen]
  have hpad : (acc ++ List.replicate (i + 1 - acc.length) none)[i]? =
      (some none : Option (Option ToolCallAcc)) := by
    rw [List.getElem?_append_right hlen, List.getElem?_replicate]
    have : i - acc.length < i + 1 - acc.length := by omega
    simp [this]
  rw [hpad]
  have hlt : i < (acc ++ List.replicate (i + 1 - acc.length) none).length := by
    simp [List.length_append, List.length_replicate]
    omega
  exact List.getElem?_set_eq_of_lt _ hlt

theorem ingest_append (acc : List (Option ToolCallAcc)) (d : ToolCallDelta)
    (i : Nat) (slot : ToolCallAcc) (hidx : d.index = some i)
    (hget : acc[i]? = some (some slot)) :
    (ingestToolCallDelta acc d)[i]? = some (some { slot with
      function := { slot.function with
        arguments := slot.function.arguments ++ d.function.arguments.getD "" } }) := by
  have hlt : i < acc.length := (List.getElem?_eq_some.mp hget).choose
  unfold ingestToolCallDelta
  rw [hidx]
  simp only [if_neg (by omega : ¬ acc.length ≤ i)]
  rw [hget]
  exact List.getElem?_set_eq_of_lt _ hlt

theorem foldl_ingest_append (fs : List ToolCallDelta) (i : Nat)
    (hall : ∀ f ∈ fs, f.index = some i) (acc : List (Option ToolCallAcc))
    (slot : ToolCallAcc) (hget : acc[i]? = some (some slot)) :
    (fs.foldl ingestToolCallDelta acc)[i]? = some (some { slot with
      function := { slot.function with
        arguments := slot.function.arguments ++ fragmentsText fs } }) := by
  induction fs generalizing acc slot with
  | nil =>
    simpa [fragmentsText] using hget
  | cons f fs ih =>
    rw [List.foldl_cons]
    have h1 := ingest_append acc f i slot (hall f (by simp)) hget
    have h2 := ih (fun g hg => hall g (by simp [hg]))
      (ingestToolCallDelta acc f) _ h1
    rw [h2]
    simp [fragmentsText, String.append_assoc]

/-- Combined creation + accumulation: ingesting a nonempty in-order
fragment sequence for index `i` into a fresh accumulator leaves slot `i`
holding the first fragment's id/type/name and the concatenation of all
argument fragments. -/
theorem foldl_ingest_spec (f0 : ToolCallDelta) (fs : List ToolCallDelta)
    (i : Nat) (h0 : f0.index = some i)
    (hall : ∀ f ∈ fs, f.index = some i) :
    ((f0 :: fs).foldl ingestToolCallDelta [])[i]? = some (some
      { id := f0.id
        type := f0.type
        function := { name := f0.function.name
                      arguments := fragmentsText (f0 :: fs) } }) := by
  rw [List.foldl_cons]
  have h1 := ingest_create [] f0 i h0 (by simp)
  have h2 := foldl_ingest_append fs i hall (ingestToolCallDelta [] f0)
    (newSlot f0) h1
  rw [h2]
  simp [newSlot, fragmentsText]

/-- **C4** — For every argument string and every way of splitting it into
an in-order sequence of fragments for the same index, the accumulated
argument text after ingesting all fragments (string concatenation in
arrival order, never overwrite) equals the original unfragmented
string. -/
theorem chunking_invariance (s : String) (f0 : ToolCallDelta)
    (fs : List ToolCallDelta) (i : Nat) (h0 : f0.index = some i)
    (hall : ∀ f ∈ fs, f.index = some i)
    (hsplit : fragmentsText (f0 :: fs) = s) :
    ∃ slot : ToolCallAcc,
      ((f0 :: fs).foldl ingestToolCallDelta [])[i]? = some (some slot) ∧
      slot.function.arguments = s := by
  exact ⟨_, foldl_ingest_spec f0 fs i h0 hall, hsplit⟩

/-- Witness for C4: the argument text `"ab" ++ "cd" = "abcd"` split over
two fragments reassembles to the unfragmented string. -/
theorem chunking_invariance_witness :
    ∃ slot : ToolCallAcc,
      (([⟨some 0, some "call_1", some "function", ⟨some "f", some "ab"⟩⟩,
         ⟨some 0, none, none, ⟨none, some "cd"⟩⟩] : List ToolCallDelta).foldl
        ingestToolCallDelta [])[0]? = some (some slot) ∧
      slot.function.arguments = "abcd" :=
  chunking_invariance "abcd"
    ⟨some 0, some "call_1", some "function", ⟨some "f", some "ab"⟩⟩
    [⟨some 0, none, none, ⟨none, some "cd"⟩⟩] 0 rfl
    (by intro f hf; simp at hf; subst hf; rfl) rfl

/-- Spec-side notion used by the claim's words: the first non-null value
occurring in a sequence of optional values. -/
def specFirstNonNull (l : List (Option String)) : Option String :=
  (l.filterMap id).head?

/-- First fragment for index 0, carrying null id and null function name. -/
def c5FragA : ToolCallDelta :=
  { index := some 0, id := none, type := some "function",
    function := { name := none, arguments := some "" } }

/-- Later fragment for index 0, supplying the id and function name. -/
def c5FragB : ToolCallDelta :=
  { index := some 0, id := some "call_1", type := none,
    function := { name := some "add_memory", arguments := some "" } }

/-- The slot the accumulator actually records for the two fragments
above: id and name stay null. -/
def c5SlotRecorded : ToolCallAcc :=
  { id := none, type := some "function",
    function := { name := none, arguments := "" } }

/-- **C5 counterexample** — the claim says the recorded id/function_name
are the *first non-null* values in the fragment sequence; on this
sequence the first non-null id is `"call_1"` and the first non-null name
is `"add_memory"`, yet the accumulator slot records `none` for both: the
creation branch copies the first fragment's (null) values and the append
branch never updates them. -/
theorem first_nonnull_capture_fails :
    specFirstNonNull ([c5FragA, c5FragB].map (fun f => f.id)) =
      some "call_1" ∧
    specFirstNonNull ([c5FragA, c5FragB].map (fun f => f.function.name)) =
      some "add_memory" ∧
    ∃ slot : ToolCallAcc,
      ([c5FragA, c5FragB].foldl ingestToolCallDelta [])[0]? =
        some (some slot) ∧
      slot.id ≠ specFirstNonNull ([c5FragA, c5FragB].map (fun f => f.id)) ∧
      slot.function.name ≠
        specFirstNonNull ([c5FragA, c5FragB].map (fun f => f.function.name)) := by
  refine ⟨rfl, rfl, c5SlotRecorded, rfl, by decide, by decide⟩

/-- **C5 (amended)** — For every fragment sequence for a given index, the
id and function_name recorded in that index's accumulator slot are the id
and function_name carried by the *first fragment* for that index (possibly
null); id and function_name carried by later fragments are ignored. -/
theorem id_name_from_first_fragment (f0 : ToolCallDelta)
    (fs : List ToolCallDelta) (i : Nat) (h0 : f0.index = some i)
    (hall : ∀ f ∈ fs, f.index = some i) :
    ∃ slot : ToolCallAcc,
      ((f0 :: fs).foldl ingestToolCallDelta [])[i]? = some (some slot) ∧
      slot.id = f0.id ∧ slot.type = f0.type ∧
      slot.function.name = f0.function.name :=
  ⟨_, foldl_ingest_spec f0 fs i h0 hall, rfl, rfl, rfl⟩

/-- Witness for the amended C5: the fragments of the counterexample,
showing the first fragment's null id/name are what gets recorded. -/
theorem id_name_from_first_fragment_witness :
    ∃ slot : ToolCallAcc,
      ([c5FragA, c5FragB].foldl ingestToolCallDelta [])[0]? =
        some (some slot) ∧
      slot.id = c5FragA.id ∧ slot.type = c5FragA.type ∧
      slot.function.name = c5FragA.function.name :=
  id_name_from_first_fragment c5FragA [c5FragB] 0 rfl
    (by intro f hf; simp at hf; subst hf; rfl)

/-! ## Claim C8: graceful degradation when the Mem0 client is absent -/

/-- **C8** — For every memory-store operation invoked while the client is
absent, the call degrades rather than crashing the turn: `search_memories`
and `get_all_memories` return the empty list and `add_memory` returns an
error descriptor.  (The model is a total function: no exception can
propagate, matching the source's `if not self.client` guards.) -/
theorem absent_client_degrades (svc : Mem0Service) (h : svc.client = none)
    (user_id : String) (query limit memory_id : JsonVal)
    (messages : List MemMsg) (metadata : Option Dict) :
    svc.search_memories user_id query limit = [] ∧
    svc.get_all_memories user_id = [] ∧
    svc.add_memory user_id messages metadata =
      [("error", .str "Memory service not available")] ∧
    svc.delete_memory memory_id user_id =
      [("error", .str "Memory service not available")] := by
  refine ⟨?_, ?_, ?_, ?_⟩ <;>
    simp [Mem0Service.search_memories, Mem0Service.get_all_memories,
      Mem0Service.add_memory, Mem0Service.delete_memory, h]

/-- An uninitialized Mem0 service (`self.client = None`). -/
def noClientMem0 : Mem0Service := { client := none }

/-- Witness for C8 at a concrete uninitialized service. -/
theorem absent_client_degrades_witness :
    noClientMem0.search_memories "user123" (.str "name") (.int 5) = [] ∧
    noClientMem0.get_all_memories "user123" = [] ∧
    noClientMem0.add_memory "user123" [{ role := "user", content := .str "hi" }]
      none = [("error", .str "Memory service not available")] ∧
    noClientMem0.delete_memory (.str "m1") "user123" =
      [("error", .str "Memory service not available")] :=
  absent_client_degrades noClientMem0 rfl "user123" (.str "name") (.int 5)
    (.str "m1") [{ role := "user", content := .str "hi" }] none

/-! ## Lemmas about the orchestrator -/

/-- "Exactly one terminal chunk is yielded, and it is the last one." -/
def exactlyOneTerminalLast (cs : List StreamChunk) : Prop :=
  (cs.filter (fun c => c.done)).length = 1 ∧
  ∃ c, cs.getLast? = some c ∧ c.done = true

/-- Decomposition form: some non-terminal chunks followed by exactly one
terminal chunk. -/
def GoodSplit (cs : List StreamChunk) : Prop :=
  ∃ pre lst, cs = pre ++ [lst] ∧ lst.done = true ∧ ∀ c ∈ pre, c.done = false

theorem goodSplit_exactlyOne (cs : List StreamChunk) (h : GoodSplit cs) :
    exactlyOneTerminalLast cs := by
  obtain ⟨pre, lst, rfl, hl, hpre⟩ := h
  constructor
  · rw [List.filter_append]
    have hnil : pre.filter (fun c => c.done) = [] := by
      rw [List.filter_eq_nil_iff]
      intro c hc
      simp [hpre c hc]
    simp [hnil, hl]
  · exact ⟨lst, by simp, hl⟩

theorem goodSplit_prepend (pre' : List StreamChunk) (cs : List StreamChunk)
    (h : ∀ c ∈ pre', c.done = false) (hg : GoodSplit cs) :
    GoodSplit (pre' ++ cs) := by
  obtain ⟨pre, lst, rfl, hl, hpre⟩ := hg
  refine ⟨pre' ++ pre, lst, by simp, hl, ?_⟩
  intro c hc
  rcases List.mem_append.mp hc with h1 | h2
  · exact h _ h1
  · exact hpre _ h2

theorem goodSplit_single (c : StreamChunk) (h : c.done = true) :
    GoodSplit [c] :=
  ⟨[], c, rfl, h, by simp⟩

theorem contentChunksOf_undone (o : Option String) :
    ∀ c ∈ contentChunksOf o, c.done = false := by
  cases o <;> simp [contentChunksOf]

theorem followUpChunks_good (fu : List StreamEvt) :
    GoodSplit (followUpChunks fu) := by
  induction fu with
  | nil => exact goodSplit_single _ rfl
  | cons e rest ih =>
    cases e with
    | err s => exact goodSplit_single _ rfl
    | chunk c d f => exact goodSplit_prepend _ _ (contentChunksOf_undone c) ih

theorem primaryLoop_chunks_good (parse : String → Except String JsonVal)
    (mem : Mem0Service) (uid : String) (k0 : CompletionKwargs)
    (full : List Msg) (fu : List StreamEvt) :
    ∀ (evts : List StreamEvt) (acc : List (Option ToolCallAcc)),
      terminatesB evts = true →
      GoodSplit (primaryLoop parse mem uid k0 full fu evts acc).chunks := by
  intro evts
  induction evts with
  | nil =>
    intro acc h
    simp [terminatesB] at h
  | cons e rest ih =>
    intro acc h
    cases e with
    | err s => exact goodSplit_single _ rfl
    | chunk content deltas finish =>
      cases finish with
      | none =>
        have ht : terminatesB rest = true := by
          simpa [terminatesB] using h
        have := goodSplit_prepend (contentChunksOf content) _
          (contentChunksOf_undone content)
          (ih (deltas.foldl ingestToolCallDelta acc) ht)
        simpa [primaryLoop] using this
      | some fr =>
        simp only [primaryLoop]
        split
        · exact goodSplit_prepend _ _ (contentChunksOf_undone content)
            (followUpChunks_good fu)
        · exact goodSplit_prepend _ _ (contentChunksOf_undone content)
            (goodSplit_single _ rfl)

theorem primaryLoop_notool (parse : String → Except String JsonVal)
    (mem : Mem0Service) (uid : String) (k0 : CompletionKwargs)
    (full : List Msg) (fu : List StreamEvt) :
    ∀ (evts : List StreamEvt) (acc : List (Option ToolCallAcc)),
      toolFinishTaken evts acc = false →
      (primaryLoop parse mem uid k0 full fu evts acc).phases = 0 ∧
      (primaryLoop parse mem uid k0 full fu evts acc).opens = [] ∧
      (primaryLoop parse mem uid k0 full fu evts acc).execed = [] ∧
      (primaryLoop parse mem uid k0 full fu evts acc).finalMsgs = full := by
  intro evts
  induction evts with
  | nil => intro acc h; simp [primaryLoop]
  | cons e rest ih =>
    intro acc h
    cases e with
    | err s => simp [primaryLoop]
    | chunk content deltas finish =>
      cases finish with
      | none =>
        have ih' := ih (deltas.foldl ingestToolCallDelta acc)
          (by simpa [toolFinishTaken] using h)
        simpa [primaryLoop] using ih'
      | some fr =>
        have hc : ¬ (fr = "tool_calls" ∧
            deltas.foldl ingestToolCallDelta acc ≠ []) := by
          simpa [toolFinishTaken] using h
        simp [primaryLoop, hc]

theorem primaryLoop_tool (parse : String → Except String JsonVal)
    (mem : Mem0Service) (uid : String) (k0 : CompletionKwargs)
    (full : List Msg) (fu : List StreamEvt) :
    ∀ (evts : List StreamEvt) (acc : List (Option ToolCallAcc)),
      toolFinishTaken evts acc = true →
      (primaryLoop parse mem uid k0 full fu evts acc).phases = 1 ∧
      (primaryLoop parse mem uid k0 full fu evts acc).opens =
        [mkFollowUpKwargs k0 (full ++ assistantMsgOf (drainedBatch evts acc) ::
          toolMsgsOf parse mem uid (drainedBatch evts acc))] ∧
      (primaryLoop parse mem uid k0 full fu evts acc).execed =
        execBatch parse mem uid (drainedBatch evts acc) ∧
      (primaryLoop parse mem uid k0 full fu evts acc).finalMsgs =
        full ++ assistantMsgOf (drainedBatch evts acc) ::
          toolMsgsOf parse mem uid (drainedBatch evts acc) := by
  intro evts
  induction evts with
  | nil => intro acc h; simp [toolFinishTaken] at h
  | cons e rest ih =>
    intro acc h
    cases e with
    | err s => simp [toolFinishTaken] at h
    | chunk content deltas finish =>
      cases finish with
      | none =>
        have ih' := ih (deltas.foldl ingestToolCallDelta acc)
          (by simpa [toolFinishTaken] using h)
        simpa [primaryLoop, drainedBatch] using ih'
      | some fr =>
        have hc : fr = "tool_calls" ∧
            deltas.foldl ingestToolCallDelta acc ≠ [] := by
          simpa [toolFinishTaken] using h
        simp [primaryLoop, drainedBatch, hc]

theorem execBatch_eq_map (parse : String → Except String JsonVal)
    (mem : Mem0Service) (uid : String) (l : List ToolCallAcc) :
    execBatch parse mem uid l =
      l.map (fun tc => (tc, executeToolCall parse mem tc uid)) := by
  induction l with
  | nil => rfl
  | cons tc rest ih => simp [execBatch, ih]

theorem toolMsgsOf_eq_map (parse : String → Except String JsonVal)
    (mem : Mem0Service) (uid : String) (l : List ToolCallAcc) :
    toolMsgsOf parse mem uid l =
      l.map (fun tc => toolMsgOf tc (executeToolCall parse mem tc uid)) := by
  simp [toolMsgsOf, execBatch_eq_map, List.map_map]

/-! ## Concrete instances used by the witnesses -/

/-- A concrete service configuration (the repository's defaults). -/
def demoSvc : OpenAIServiceModel :=
  { model := "gpt-3.5-turbo", temperature := 7/10, max_tokens := 1000,
    system_prompt := "You are a helpful AI assistant." }

/-- A concrete stand-in for `json.loads`: accepts the empty argument
string as the empty object, rejects everything else with the library's
usual message. -/
def demoParse : String → Except String JsonVal := fun s =>
  if s = "" then .ok (.obj [])
  else .error "Expecting value: line 1 column 1 (char 0)"

/-- A concrete healthy Mem0 client. -/
def demoClient : MemClient :=
  { add := fun _ _ => .ok [("results", .arr [])]
    search := fun _ _ => .ok []
    delete := fun _ _ => .ok [("message", .str "ok")] }

/-- A Mem0 service whose client initialized successfully. -/
def demoMem0 : Mem0Service := { client := some demoClient }

/-- A complete single-fragment tool call for `search_memories`. -/
def demoToolDelta : ToolCallDelta :=
  { index := some 0, id := some "call_1", type := some "function",
    function := { name := some "search_memories", arguments := some "" } }

/-- A second invocation whose accumulated arguments are not valid JSON
and whose function name is unknown. -/
def demoBadDelta : ToolCallDelta :=
  { index := some 1, id := some "call_2", type := some "function",
    function := { name := some "fly_to_moon", arguments := some "not json" } }

/-- Primary stream finishing with `finish_reason = "tool_calls"`. -/
def demoPrimaryTool : List StreamEvt :=
  [.chunk none [demoToolDelta] (some "tool_calls")]

/-- Primary stream carrying two invocations, one of them failing. -/
def demoPrimaryTwoTools : List StreamEvt :=
  [.chunk none [demoToolDelta, demoBadDelta] (some "tool_calls")]

/-- Content-only primary stream finishing with `stop`. -/
def demoPrimaryStop : List StreamEvt :=
  [.chunk (some "Hello") [] none, .chunk none [] (some "stop")]

/-- A short follow-up stream. -/
def demoFollowUp : List StreamEvt := [.chunk (some "Done.") [] none]

/-- The conversation context handed to the orchestrator. -/
def demoMessages : List Msg :=
  [{ role := "user", content := some (.text "What is my name?") }]

/-! ## Claim C1 -/

/-- **C1** — For every turn of `stream_chat_completion` (one whose primary
stream reaches a terminator: a finish signal or a raised exception, i.e.
the content-only, tool-call or error path), the yielded chunk sequence
contains exactly one chunk with `done = true`, and that chunk is last. -/
theorem turn_exactly_one_terminal (svc : OpenAIServiceModel)
    (parse : String → Except String JsonVal) (mem : Mem0Service)
    (messages : List Msg) (uid : String) (use_tools : Bool)
    (primary followUp : List StreamEvt) (h : terminatesB primary = true) :
    exactlyOneTerminalLast
      (streamChatCompletion svc parse mem messages uid use_tools
        primary followUp).chunks := by
  apply goodSplit_exactlyOne
  have hg := primaryLoop_chunks_good parse mem uid
    (initialKwargs svc messages use_tools)
    (initialMessages svc messages use_tools) followUp primary [] h
  simpa [streamChatCompletion] using hg

/-- Witness for C1 on a concrete content-only turn. -/
theorem turn_exactly_one_terminal_witness :
    terminatesB demoPrimaryStop = true ∧
    exactlyOneTerminalLast
      (streamChatCompletion demoSvc demoParse demoMem0 demoMessages
        "user123" true demoPrimaryStop demoFollowUp).chunks :=
  ⟨by decide, turn_exactly_one_terminal demoSvc demoParse demoMem0
    demoMessages "user123" true demoPrimaryStop demoFollowUp (by decide)⟩

/-! ## Claim C2 -/

/-- **C2** — At most two provider streams are opened and at most one
tool-execution phase occurs per turn; every follow-up request (any open
after the first) has `tools` and `tool_choice` removed; and whenever the
primary stream finishes with `finish_reason = tool_calls` (with a
non-empty batch), the follow-up request is actually made. -/
theorem followup_tools_disabled (svc : OpenAIServiceModel)
    (parse : String → Except String JsonVal) (mem : Mem0Service)
    (messages : List Msg) (uid : String) (use_tools : Bool)
    (primary followUp : List StreamEvt) :
    (streamChatCompletion svc parse mem messages uid use_tools
      primary followUp).opens.length ≤ 2 ∧
    (streamChatCompletion svc parse mem messages uid use_tools
      primary followUp).phases ≤ 1 ∧
    (∀ k ∈ (streamChatCompletion svc parse mem messages uid use_tools
      primary followUp).opens.drop 1,
      k.tools = none ∧ k.tool_choice = none) ∧
    (toolFinishTaken primary [] = true →
      (streamChatCompletion svc parse mem messages uid use_tools
        primary followUp).opens.length = 2 ∧
      (streamChatCompletion svc parse mem messages uid use_tools
        primary followUp).phases = 1) := by
  cases hbv : toolFinishTaken primary [] with
  | true =>
    obtain ⟨h1, h2, h3, h4⟩ := primaryLoop_tool parse mem uid
      (initialKwargs svc messages use_tools)
      (initialMessages svc messages use_tools) followUp primary [] hbv
    refine ⟨?_, ?_, ?_, fun _ => ⟨?_, ?_⟩⟩ <;>
      simp [streamChatCompletion, h1, h2, mkFollowUpKwargs]
  | false =>
    obtain ⟨h1, h2, h3, h4⟩ := primaryLoop_notool parse mem uid
      (initialKwargs svc messages use_tools)
      (initialMessages svc messages use_tools) followUp primary [] hbv
    refine ⟨?_, ?_, ?_, fun hcontra => ?_⟩
    · simp [streamChatCompletion, h2]
    · simp [streamChatCompletion, h1]
    · simp [streamChatCompletion, h2]
    · exact absurd hcontra (by simp)

/-- Witness for C2 on a concrete tool-call turn. -/
theorem followup_tools_disabled_witness :
    toolFinishTaken demoPrimaryTool [] = true ∧
    ((streamChatCompletion demoSvc demoParse demoMem0 demoMessages
        "user123" true demoPrimaryTool demoFollowUp).opens.length = 2 ∧
      (streamChatCompletion demoSvc demoParse demoMem0 demoMessages
        "user123" true demoPrimaryTool demoFollowUp).phases = 1) :=
  ⟨by decide, (followup_tools_disabled demoSvc demoParse demoMem0
    demoMessages "user123" true demoPrimaryTool demoFollowUp).2.2.2
    (by decide)⟩

/-! ## Claim C3 -/

/-- **C3** — For every batch drained at `finish_reason = tool_calls`,
exactly one `ToolResult` is produced per completed invocation, in the
invocations' original index order (the drained batch is the non-`None`
accumulator slots in index order) and sequentially, and one tool-role
message per invocation is appended in the same order — regardless of
whether each individual execution succeeds or fails. -/
theorem batch_results_complete (svc : OpenAIServiceModel)
    (parse : String → Except String JsonVal) (mem : Mem0Service)
    (messages : List Msg) (uid : String) (use_tools : Bool)
    (primary followUp : List StreamEvt)
    (h : toolFinishTaken primary [] = true) :
    (streamChatCompletion svc parse mem messages uid use_tools
      primary followUp).execed =
      (drainedBatch primary []).map
        (fun tc => (tc, executeToolCall parse mem tc uid)) ∧
    (streamChatCompletion svc parse mem messages uid use_tools
      primary followUp).execed.length = (drainedBatch primary []).length ∧
    (streamChatCompletion svc parse mem messages uid use_tools
      primary followUp).finalMsgs =
      initialMessages svc messages use_tools ++
        assistantMsgOf (drainedBatch primary []) ::
        (drainedBatch primary []).map
          (fun tc => toolMsgOf tc (executeToolCall parse mem tc uid)) := by
  obtain ⟨h1, h2, h3, h4⟩ := primaryLoop_tool parse mem uid
    (initialKwargs svc messages use_tools)
    (initialMessages svc messages use_tools) followUp primary [] h
  refine ⟨?_, ?_, ?_⟩
  · simp [streamChatCompletion, h3, execBatch_eq_map]
  · simp [streamChatCompletion, h3, execBatch_eq_map]
  · simp [streamChatCompletion, h4, toolMsgsOf_eq_map]

/-- Witness for C3 on a two-invocation batch, one invocation failing
(malformed arguments + unknown function name). -/
theorem batch_results_complete_witness :
    toolFinishTaken demoPrimaryTwoTools [] = true ∧
    (streamChatCompletion demoSvc demoParse demoMem0 demoMessages
      "user123" true demoPrimaryTwoTools demoFollowUp).execed.length =
      (drainedBatch demoPrimaryTwoTools []).length :=
  ⟨by decide, (batch_results_complete demoSvc demoParse demoMem0
    demoMessages "user123" true demoPrimaryTwoTools demoFollowUp
    (by decide)).2.1⟩

/-! ## Claim C9 -/

/-- **C9** — In the message list produced by a tool-call turn, the
appended assistant message carries exactly the drained invocations as its
`tool_calls`, the tool-role messages follow it immediately, and every
appended tool-role message's `tool_call_id` equals the id of some entry
of that assistant message's `tool_calls`. -/
theorem tool_messages_reference_preceding_assistant
    (svc : OpenAIServiceModel) (parse : String → Except String JsonVal)
    (mem : Mem0Service) (messages : List Msg) (uid : String)
    (use_tools : Bool) (primary followUp : List StreamEvt)
    (h : toolFinishTaken primary [] = true) :
    (streamChatCompletion svc parse mem messages uid use_tools
      primary followUp).finalMsgs =
      initialMessages svc messages use_tools ++
        assistantMsgOf (drainedBatch primary []) ::
        toolMsgsOf parse mem uid (drainedBatch primary []) ∧
    (assistantMsgOf (drainedBatch primary [])).tool_calls =
      drainedBatch primary [] ∧
    (∀ m ∈ toolMsgsOf parse mem uid (drainedBatch primary []),
      m.role = "tool" ∧
      ∃ tc ∈ (assistantMsgOf (drainedBatch primary [])).tool_calls,
        m.tool_call_id = tc.id) := by
  obtain ⟨h1, h2, h3, h4⟩ := primaryLoop_tool parse mem uid
    (initialKwargs svc messages use_tools)
    (initialMessages svc messages use_tools) followUp primary [] h
  refine ⟨by simp [streamChatCompletion, h4], rfl, ?_⟩
  intro m hm
  rw [toolMsgsOf_eq_map] at hm
  obtain ⟨tc, htc, rfl⟩ := List.mem_map.mp hm
  exact ⟨rfl, tc, htc, rfl⟩

/-- Witness for C9 on a concrete tool-call turn. -/
theorem tool_messages_reference_preceding_assistant_witness :
    toolFinishTaken demoPrimaryTool [] = true ∧
    (∀ m ∈ toolMsgsOf demoParse demoMem0 "user123"
        (drainedBatch demoPrimaryTool []),
      m.role = "tool" ∧
      ∃ tc ∈ (assistantMsgOf (drainedBatch demoPrimaryTool [])).tool_calls,
        m.tool_call_id = tc.id) :=
  ⟨by decide, (tool_messages_reference_preceding_assistant demoSvc demoParse
    demoMem0 demoMessages "user123" true demoPrimaryTool demoFollowUp
    (by decide)).2.2⟩

/-! ## Claims C6 and C7 -/

/-- Membership of the tool message for an executed invocation in the
final message list of a tool-call turn. -/
theorem toolMsg_mem_finalMsgs (svc : OpenAIServiceModel)
    (parse : String → Except String JsonVal) (mem : Mem0Service)
    (messages : List Msg) (uid : String) (use_tools : Bool)
    (primary followUp : List StreamEvt) (tc : ToolCallAcc)
    (h : toolFinishTaken primary [] = true)
    (hmem : tc ∈ drainedBatch primary []) :
    toolMsgOf tc (executeToolCall parse mem tc uid) ∈
      (streamChatCompletion svc parse mem messages uid use_tools
        primary followUp).finalMsgs := by
  obtain ⟨h1, h2, h3, h4⟩ := primaryLoop_tool parse mem uid
    (initialKwargs svc messages use_tools)
    (initialMessages svc messages use_tools) followUp primary [] h
  have hfm : (streamChatCompletion svc parse mem messages uid use_tools
      primary followUp).finalMsgs =
      initialMessages svc messages use_tools ++
        assistantMsgOf (drainedBatch primary []) ::
        toolMsgsOf parse mem uid (drainedBatch primary []) := by
    simp [streamChatCompletion, h4]
  rw [hfm]
  refine List.mem_append_right _ (List.mem_cons_of_mem _ ?_)
  rw [toolMsgsOf_eq_map]
  exact List.mem_map.mpr ⟨tc, hmem, rfl⟩

/-- The number of provider streams opened by a tool-call turn. -/
theorem toolTurn_opens_two (svc : OpenAIServiceModel)
    (parse : String → Except String JsonVal) (mem : Mem0Service)
    (messages : List Msg) (uid : String) (use_tools : Bool)
    (primary followUp : List StreamEvt)
    (h : toolFinishTaken primary [] = true) :
    (streamChatCompletion svc parse mem messages uid use_tools
      primary followUp).opens.length = 2 := by
  obtain ⟨h1, h2, h3, h4⟩ := primaryLoop_tool parse mem uid
    (initialKwargs svc messages use_tools)
    (initialMessages svc messages use_tools) followUp primary [] h
  simp [streamChatCompletion, h2]

/-- **C6** — For every invocation whose function_name is not one of the
five known operations, `_execute_tool_call` returns a `ToolResult` with
`success = false` and an error payload naming the unknown function, it
does not raise (the model is a total function), and the turn continues to
the follow-up round with that result visible to the model. -/
theorem unknown_function_nonfatal (parse : String → Except String JsonVal)
    (mem : Mem0Service) (uid : String) (tc : ToolCallAcc) (v : JsonVal)
    (hparse : parse tc.function.arguments = .ok v)
    (hname : tc.function.name ∉ memoryToolNames.map some) :
    executeToolCall parse mem tc uid = unknownResult tc ∧
    (unknownResult tc).success = false ∧
    (unknownResult tc).result =
      .obj [("error",
        .str ("Unknown function: " ++ pyOptStr tc.function.name))] ∧
    (∀ (svc : OpenAIServiceModel) (messages : List Msg) (use_tools : Bool)
      (primary followUp : List StreamEvt),
      toolFinishTaken primary [] = true → tc ∈ drainedBatch primary [] →
      (streamChatCompletion svc parse mem messages uid use_tools
        primary followUp).opens.length = 2 ∧
      toolMsgOf tc (unknownResult tc) ∈
        (streamChatCompletion svc parse mem messages uid use_tools
          primary followUp).finalMsgs) := by
  have hexec : executeToolCall parse mem tc uid = unknownResult tc := by
    rcases hn : tc.function.name with _ | s
    · simp only [executeToolCall, hparse, hn]
    · simp only [executeToolCall, hparse, hn]
      split <;> try rfl
      all_goals
        (rename_i heq
         exfalso
         apply hname
         rw [hn]
         simp_all [memoryToolNames])
  refine ⟨hexec, rfl, rfl, ?_⟩
  intro svc messages use_tools primary followUp h hmem
  refine ⟨toolTurn_opens_two svc parse mem messages uid use_tools
    primary followUp h, ?_⟩
  have := toolMsg_mem_finalMsgs svc parse mem messages uid use_tools
    primary followUp tc h hmem
  rwa [hexec] at this

/-- The accumulator slot of an invocation with parseable arguments but an
unknown function name. -/
def demoUnknownAcc : ToolCallAcc :=
  { id := some "call_2", type := some "function",
    function := { name := some "fly_to_moon", arguments := "" } }

/-- A primary stream delivering only the unknown-function invocation. -/
def demoPrimaryUnknown : List StreamEvt :=
  [.chunk none [⟨some 0, some "call_2", some "function",
    ⟨some "fly_to_moon", some ""⟩⟩] (some "tool_calls")]

/-- Witness for C6 at a concrete unknown-function invocation. -/
theorem unknown_function_nonfatal_witness :
    demoParse demoUnknownAcc.function.arguments = .ok (.obj []) ∧
    demoUnknownAcc.function.name ∉ memoryToolNames.map some ∧
    executeToolCall demoParse demoMem0 demoUnknownAcc "user123" =
      unknownResult demoUnknownAcc ∧
    (streamChatCompletion demoSvc demoParse demoMem0 demoMessages "user123"
      true demoPrimaryUnknown demoFollowUp).opens.length = 2 :=
  ⟨rfl, by decide,
    (unknown_function_nonfatal demoParse demoMem0 "user123" demoUnknownAcc
      (.obj []) rfl (by decide)).1,
    ((unknown_function_nonfatal demoParse demoMem0 "user123" demoUnknownAcc
      (.obj []) rfl (by decide)).2.2.2 demoSvc demoMessages true
      demoPrimaryUnknown demoFollowUp (by decide) (by decide)).1⟩

/-- **C7** — For every invocation whose accumulated argument text is not
valid JSON, the parse failure stays local: its `ToolResult` has
`success = false` with an error payload, no exception escapes
`_execute_tool_call` (the model is total), the remaining invocations of
the batch are all still executed, and the turn's follow-up round still
proceeds with the failed result visible. -/
theorem malformed_arguments_local (parse : String → Except String JsonVal)
    (mem : Mem0Service) (uid : String) (tc : ToolCallAcc) (e : String)
    (hparse : parse tc.function.arguments = .error e) :
    executeToolCall parse mem tc uid = exnResult tc e ∧
    (exnResult tc e).success = false ∧
    (exnResult tc e).result = .obj [("error", .str e)] ∧
    (∀ (svc : OpenAIServiceModel) (messages : List Msg) (use_tools : Bool)
      (primary followUp : List StreamEvt),
      toolFinishTaken primary [] = true → tc ∈ drainedBatch primary [] →
      (streamChatCompletion svc parse mem messages uid use_tools
        primary followUp).execed =
        (drainedBatch primary []).map
          (fun t => (t, executeToolCall parse mem t uid)) ∧
      (streamChatCompletion svc parse mem messages uid use_tools
        primary followUp).opens.length = 2 ∧
      toolMsgOf tc (exnResult tc e) ∈
        (streamChatCompletion svc parse mem messages uid use_tools
          primary followUp).finalMsgs) := by
  have hexec : executeToolCall parse mem tc uid = exnResult tc e := by
    unfold executeToolCall
    rw [hparse]
  refine ⟨hexec, rfl, rfl, ?_⟩
  intro svc messages use_tools primary followUp h hmem
  obtain ⟨h1, h2, h3, h4⟩ := primaryLoop_tool parse mem uid
    (initialKwargs svc messages use_tools)
    (initialMessages svc messages use_tools) followUp primary [] h
  refine ⟨by simp [streamChatCompletion, h3, execBatch_eq_map],
    toolTurn_opens_two svc parse mem messages uid use_tools
      primary followUp h, ?_⟩
  have := toolMsg_mem_finalMsgs svc parse mem messages uid use_tools
    primary followUp tc h hmem
  rwa [hexec] at this

/-- The accumulator slot produced for `demoBadDelta`. -/
def demoBadAcc : ToolCallAcc :=
  { id := some "call_2", type := some "function",
    function := { name := some "fly_to_moon", arguments := "not json" } }

/-- Witness for C7 at a concrete malformed-arguments invocation inside a
two-invocation batch. -/
theorem malformed_arguments_local_witness :
    demoParse demoBadAcc.function.arguments =
      .error "Expecting value: line 1 column 1 (char 0)" ∧
    executeToolCall demoParse demoMem0 demoBadAcc "user123" =
      exnResult demoBadAcc "Expecting value: line 1 column 1 (char 0)" ∧
    (streamChatCompletion demoSvc demoParse demoMem0 demoMessages "user123"
      true demoPrimaryTwoTools demoFollowUp).opens.length = 2 :=
  ⟨rfl,
    (malformed_arguments_local demoParse demoMem0 "user123" demoBadAcc
      "Expecting value: line 1 column 1 (char 0)" rfl).1,
    ((malformed_arguments_local demoParse demoMem0 "user123" demoBadAcc
      "Expecting value: line 1 column 1 (char 0)" rfl).2.2.2 demoSvc
      demoMessages true demoPrimaryTwoTools demoFollowUp (by decide)
      (by decide)).2.1⟩

/-! ## Claim C10 -/

/-- Folding the route's response loop over a chunk list whose single
terminal chunk is last: the history is updated iff the accumulated
response is non-blank. -/
theorem generateResponse_spec (uid um ts : String) :
    ∀ (body : List StreamChunk) (d : StreamChunk) (fr : String)
      (mem : Memories), (∀ c ∈ body, c.done = false) → d.done = true →
      generateResponseMemories uid um ts (body ++ [d]) fr mem =
        (if pyStrip (fr ++ concatContents body) ≠ ""
         then add_conversation mem uid um (fr ++ concatContents body) ts
         else mem) := by
  intro body
  induction body with
  | nil =>
    intro d fr mem hb hd
    simp [generateResponseMemories, hd, concatContents, String.append_empty]
  | cons c rest ih =>
    intro d fr mem hb hd
    have hc : c.done = false := hb c (by simp)
    rw [List.cons_append, generateResponseMemories]
    simp only [hc, Bool.false_eq_true, if_false]
    rw [ih d (fr ++ c.content) mem (fun x hx => hb x (by simp [hx])) hd]
    simp [concatContents, String.append_assoc]

/-- **C10** — For every completed turn of the `/chat` endpoint (the
service's chunk sequence: non-terminal chunks followed by the single
terminal chunk), the per-user history is extended with the
(user message, assistant response) pair exactly when the concatenation of
the non-terminal chunk contents is non-blank; otherwise the history map
is left unchanged. -/
theorem history_updated_iff_nonblank (uid um ts : String)
    (body : List StreamChunk) (d : StreamChunk) (mem : Memories)
    (hb : ∀ c ∈ body, c.done = false) (hd : d.done = true) :
    (pyStrip (concatContents body) ≠ "" →
      generateResponseMemories uid um ts (body ++ [d]) "" mem =
        add_conversation mem uid um (concatContents body) ts ∧
      ∃ pre, add_conversation mem uid um (concatContents body) ts uid =
        pre ++ [{ timestamp := ts, user_message := um,
                  assistant_response := concatContents body }]) ∧
    (pyStrip (concatContents body) = "" →
      generateResponseMemories uid um ts (body ++ [d]) "" mem = mem) := by
  have hmain := generateResponse_spec uid um ts body d "" mem hb hd
  rw [String.empty_append] at hmain
  constructor
  · intro hne
    rw [if_pos hne] at hmain
    refine ⟨hmain, ?_⟩
    unfold add_conversation
    simp only [if_pos rfl]
    set conv : Conversation :=
      { timestamp := ts, user_message := um,
        assistant_response := concatContents body } with hconv
    by_cases hcap :
        max_memories_per_user < (mem uid ++ [conv]).length
    · rw [if_pos hcap]
      have hk : (mem uid ++ [conv]).length - max_memories_per_user ≤
          (mem uid).length := by
        simp only [max_memories_per_user, List.length_append,
          List.length_singleton] at hcap ⊢
        omega
      rw [List.drop_append_of_le_length hk]
      exact ⟨_, rfl⟩
    · rw [if_neg hcap]
      exact ⟨mem uid, rfl⟩
  · intro heq
    rw [if_neg (by simp [heq])] at hmain
    exact hmain

/-- The non-terminal chunks of a concrete completed turn. -/
def demoBody : List StreamChunk :=
  [{ content := "Hello! ", done := false },
   { content := "Nice to meet you.", done := false }]

/-- An empty conversation-history map. -/
def demoEmptyMemories : Memories := fun _ => []

/-- Witness for C10 on a concrete non-blank turn. -/
theorem history_updated_iff_nonblank_witness :
    (∀ c ∈ demoBody, c.done = false) ∧
    pyStrip (concatContents demoBody) ≠ "" ∧
    generateResponseMemories "user123" "Hi, I am Sam" "t0"
        (demoBody ++ [{ content := "", done := true }]) ""
        demoEmptyMemories =
      add_conversation demoEmptyMemories "user123" "Hi, I am Sam"
        (concatContents demoBody) "t0" :=
  ⟨by decide, by decide,
    ((history_updated_iff_nonblank "user123" "Hi, I am Sam" "t0" demoBody
      { content := "", done := true } demoEmptyMemories (by decide)
      rfl).1 (by decide)).1⟩

end SmartChatbot
